import Mathlib

/-!
Verification of the CrowdSense crowd-analytics core: the Euclidean-distance
tracker (`tracker.py`), the per-frame crowd aggregation (`camera.py`) and the
advertisement manager (`ad_manager.py`, thresholds from `config.py`).

The Python sources are shallowly embedded.  Machine reals that the code only
compares are modelled exactly:
* Euclidean centroid distances are represented by their squares over `Int`
  (squaring is strictly monotone on nonnegative reals, so every comparison and
  every sort the code performs on square roots coincides with the corresponding
  one on squared values; the threshold `max_distance` becomes `max_distance²`);
* timestamps (`time.time()` floats) are modelled as `Int` seconds — the code only
  subtracts and compares them;
* detection confidences are `ℚ`.
Python `int(x + w/2.0)` on naturals is `x + w / 2` with `Nat` division.
-/

set_option linter.unusedVariables false

/-- One detection handed to `EuclideanDistTracker.update`:
`{'bbox': (x, y, w, h), 'gender': str, 'confidence': float}`. -/
structure Obs where
  bbox : Nat × Nat × Nat × Nat
  gender : String
  confidence : ℚ
deriving DecidableEq

/-- One tracked object.  The three parallel `OrderedDict`s of the source
(`objects`, `disappeared`, `history`) always share their keys (`register` and
`deregister` touch all three together), so they are modelled as one association
list whose entries carry the `disappeared` counter and the centroid `history`
alongside the per-track record of `objects`. -/
structure Track where
  centroid : Nat × Nat
  bbox : Nat × Nat × Nat × Nat
  gender : String
  confidence : ℚ
  gender_history : List String
  hits : Nat
  disappeared : Nat
  centroid_history : List (Nat × Nat)
deriving DecidableEq

/-- The state of an `EuclideanDistTracker`.  Entries of `objects` are kept in
dictionary insertion order. -/
structure TrackerState where
  next_object_id : Nat
  objects : List (Nat × Track)
  max_disappeared : Nat
  max_distance : Nat
deriving DecidableEq

def initTracker (max_disappeared max_distance : Nat) : TrackerState :=
  { next_object_id := 0
    objects := []
    max_disappeared := max_disappeared
    max_distance := max_distance }

/-- Computes `cX = int(x + w / 2.0)`, `cY = int(y + h / 2.0)` for a `(x, y, w, h)` box. -/
def centroidOf (bbox : Nat × Nat × Nat × Nat) : Nat × Nat :=
  (bbox.1 + bbox.2.2.1 / 2, bbox.2.1 + bbox.2.2.2 / 2)

/-- Squared Euclidean distance between two centroids. -/
def distSq (a b : Nat × Nat) : Int :=
  ((a.1 : Int) - b.1) * ((a.1 : Int) - b.1) + ((a.2 : Int) - b.2) * ((a.2 : Int) - b.2)

def rowAt (D : List (List Int)) (r : Nat) : List Int := (D.get? r).getD []

def dAt (D : List (List Int)) (r c : Nat) : Int := ((rowAt D r).get? c).getD 0

/-- Python `row.min()`. -/
def rowMin : List Int → Int
  | [] => 0
  | a :: l => l.foldl min a

/-- Python `row.argmin()`: index of the first occurrence of the row's minimum. -/
def argminIdx : List Int → Nat
  | [] => 0
  | a :: l =>
    let t := argminIdx l
    if (l.get? t).getD a < a then t + 1 else 0

/-- Python `rows = D.min(axis=1).argsort()`: the row indices sorted by the row's minimal
distance.  (numpy's default sort leaves the order of tied keys unspecified; the
model fixes a stable sort, and no proof below depends on tie order.) -/
def sortedRowIdx (D : List (List Int)) : List Nat :=
  (List.range D.length).insertionSort (fun i j => rowMin (rowAt D i) ≤ rowMin (rowAt D j))

/-- The association loop of `EuclideanDistTracker.update` (tracker.py 59-90,
restricted to the accepted `(row, col)` pairs): skip a pair whose row or column is
already used or whose distance exceeds `max_distance`, otherwise accept it and
mark both sides used. -/
def greedyLoop (D : List (List Int)) (maxDist : Nat) :
    List (Nat × Nat) → List Nat → List Nat → List (Nat × Nat)
  | [], _, _ => []
  | rc :: rest, usedR, usedC =>
    if rc.1 ∈ usedR ∨ rc.2 ∈ usedC then greedyLoop D maxDist rest usedR usedC
    else if (maxDist : Int) * maxDist < dAt D rc.1 rc.2 then
      greedyLoop D maxDist rest usedR usedC
    else rc :: greedyLoop D maxDist rest (rc.1 :: usedR) (rc.2 :: usedC)

/-- The `(row, col)` pairs accepted by `update`'s association:
`rows = D.min(axis=1).argsort(); cols = D.argmin(axis=1)[rows]; zip(rows, cols)`
filtered through the loop above. -/
def codePairs (D : List (List Int)) (maxDist : Nat) : List (Nat × Nat) :=
  let rows := sortedRowIdx D
  let cols := rows.map (fun r => argminIdx (rowAt D r))
  greedyLoop D maxDist (rows.zip cols) [] []

/-- Keys of a list in first-occurrence order: the insertion order of the
`collections.Counter` built from it. -/
def firstKeys (l : List String) : List String :=
  l.foldl (fun acc s => if s ∈ acc then acc else acc ++ [s]) []

/-- First key attaining the maximal value of `f`; the earliest key wins ties. -/
def pickMax (f : String → Nat) : List String → Option String
  | [] => none
  | k :: ks =>
    match pickMax f ks with
    | none => some k
    | some m => if f k < f m then some m else some k

/-- Python `Counter(history).most_common(1)[0][0]`: the most frequent label; on ties
`heapq.nlargest` prefers the earlier item, i.e. the label whose first occurrence
in the history is earliest. -/
def counterMode (l : List String) : String :=
  (pickMax (fun s => l.count s) (firstKeys l)).getD ""

/-- The gender-voting step of a match (tracker.py 73-82): a non-Unknown label is
appended to the history (capped at 20, dropping the oldest via `pop(0)`) and the
gender label recomputed as the history's `Counter` majority. -/
def voteGender (t : Track) (g : String) : Track :=
  if g ≠ "Unknown" then
    if 20 < (t.gender_history ++ [g]).length then
      { t with
        gender_history := (t.gender_history ++ [g]).tail
        gender := counterMode ((t.gender_history ++ [g]).tail) }
    else
      { t with
        gender_history := t.gender_history ++ [g]
        gender := counterMode (t.gender_history ++ [g]) }
  else t

/-- The update performed on the track of an accepted `(row, col)` pair
(tracker.py 70-88): new centroid and box, the gender vote above, confidence kept
at the max, hits incremented, `disappeared` reset to 0. -/
def matchedTrack (t : Track) (r : Obs) (ic : Nat × Nat) : Track :=
  let t2 := voteGender { t with centroid := ic, bbox := r.bbox } r.gender
  { t2 with
    confidence := max t2.confidence r.confidence
    hits := t2.hits + 1
    disappeared := 0 }

/-- The record built by `EuclideanDistTracker.register`. -/
def freshTrack (c : Nat × Nat) (bbox : Nat × Nat × Nat × Nat) (g : String)
    (conf : ℚ) : Track :=
  { centroid := c
    bbox := bbox
    gender := g
    confidence := conf
    gender_history := [g]
    hits := 1
    disappeared := 0
    centroid_history := [c] }

/-- Method `EuclideanDistTracker.register`. -/
def register (st : TrackerState) (c : Nat × Nat) (bbox : Nat × Nat × Nat × Nat)
    (g : String) (conf : ℚ) : TrackerState :=
  { st with
    objects := st.objects ++ [(st.next_object_id, freshTrack c bbox g conf)]
    next_object_id := st.next_object_id + 1 }

/-- The `len(rects) == 0` branch of `update`: every track's `disappeared`
increments, and a track is deregistered once it exceeds `max_disappeared`. -/
def ageObjs (maxDis : Nat) : List (Nat × Track) → List (Nat × Track)
  | [] => []
  | p :: rest =>
    if maxDis < p.2.disappeared + 1 then ageObjs maxDis rest
    else (p.1, { p.2 with disappeared := p.2.disappeared + 1 }) :: ageObjs maxDis rest

/-- The fate of the dictionary entry at position `i` under the accepted pairs:
a matched entry is updated via `matchedTrack`, an unmatched one ages and is
dropped (`none` = deregistered) past the threshold. -/
def processEntry (M : List (Nat × Nat)) (rects : List Obs) (cents : List (Nat × Nat))
    (maxDis : Nat) (i : Nat) (p : Nat × Track) : Option (Nat × Track) :=
  match M.find? (fun rc => rc.1 == i) with
  | some rc =>
    match rects.get? rc.2, cents.get? rc.2 with
    | some r, some ic => some (p.1, matchedTrack p.2 r ic)
    | _, _ => some p
  | none =>
    if maxDis < p.2.disappeared + 1 then none
    else some (p.1, { p.2 with disappeared := p.2.disappeared + 1 })

/-- Application of the accepted association pairs, entry by entry in dictionary
order.  Dictionary updates and deletions preserve insertion order, so the
source's key-based loops amount to exactly this positional pass. -/
def processRows (M : List (Nat × Nat)) (rects : List Obs) (cents : List (Nat × Nat))
    (maxDis : Nat) : Nat → List (Nat × Track) → List (Nat × Track)
  | _, [] => []
  | i, p :: rest =>
    match processEntry M rects cents maxDis i p with
    | some q => q :: processRows M rects cents maxDis (i + 1) rest
    | none => processRows M rects cents maxDis (i + 1) rest

/-- Registration of the observations at the given column indices (`register` is
called with `input_centroids[col]` and `rects[col]`); Python iterates the set of
unused columns, i.e. ascending small-int order. -/
def registerCols (rects : List Obs) (cents : List (Nat × Nat)) :
    List Nat → TrackerState → TrackerState
  | [], st => st
  | c :: cols, st =>
    match rects.get? c, cents.get? c with
    | some r, some ic =>
      registerCols rects cents cols (register st ic r.bbox r.gender r.confidence)
    | _, _ => registerCols rects cents cols st

/-- The matrix `D = dist(object_centroids, input_centroids)` (squared). -/
def dMat (st : TrackerState) (cents : List (Nat × Nat)) : List (List Int) :=
  st.objects.map (fun p => cents.map (fun ic => distSq p.2.centroid ic))

/-- The tail of `update`'s main branch, given the accepted association pairs:
matched tracks updated, unmatched tracks aged, unmatched observations
registered. -/
def applyAssoc (st : TrackerState) (rects : List Obs) (cents : List (Nat × Nat))
    (M : List (Nat × Nat)) : TrackerState :=
  let st1 : TrackerState :=
    { st with objects := processRows M rects cents st.max_disappeared 0 st.objects }
  let usedCols := M.map Prod.snd
  registerCols rects cents
    ((List.range rects.length).filter (fun c => !usedCols.contains c)) st1

/-- Method `EuclideanDistTracker.update`. -/
def update (st : TrackerState) (rects : List Obs) : TrackerState :=
  if rects = [] then { st with objects := ageObjs st.max_disappeared st.objects }
  else
    let cents := rects.map (fun r => centroidOf r.bbox)
    if st.objects = [] then registerCols rects cents (List.range rects.length) st
    else applyAssoc st rects cents (codePairs (dMat st cents) st.max_distance)

/-- A sequence of per-frame `update` calls. -/
def runUpdates (st : TrackerState) (frames : List (List Obs)) : TrackerState :=
  frames.foldl update st

/-- Modelled from the spec's words, for comparison with `codePairs`: "generate all
(existing, new) pairs sorted ascending by distance; process in order, accepting a
pair only if neither side is already matched and distance ≤ maxDistance".
`D` holds squared distances, so the bound is `maxDist²`. -/
def specAccept (D : List (List Int)) (maxDist : Nat) :
    List (Nat × Nat) → List Nat → List Nat → List (Nat × Nat)
  | [], _, _ => []
  | rc :: rest, usedR, usedC =>
    if rc.1 ∉ usedR ∧ rc.2 ∉ usedC ∧ dAt D rc.1 rc.2 ≤ (maxDist : Int) * maxDist then
      rc :: specAccept D maxDist rest (rc.1 :: usedR) (rc.2 :: usedC)
    else specAccept D maxDist rest usedR usedC

/-- Modelled from the spec's words: the greedy association over all pairs sorted
ascending by distance. -/
def specGreedyPairs (D : List (List Int)) (maxDist : Nat) : List (Nat × Nat) :=
  let allPairs :=
    (List.range D.length).flatMap (fun r => (List.range (rowAt D r).length).map (fun c => (r, c)))
  let sorted := allPairs.insertionSort (fun p q => dAt D p.1 p.2 ≤ dAt D q.1 q.2)
  specAccept D maxDist sorted [] []

/-- Modelled from the amended claim: each existing track is paired with its nearest
observation only; tracks are processed in ascending order of that nearest distance,
a pair being accepted exactly when its observation is not yet matched and its
distance is within the threshold; a track whose nearest observation is already
taken is left unmatched rather than reassigned. -/
def amendedLoop (D : List (List Int)) (maxDist : Nat) :
    List Nat → List Nat → List (Nat × Nat)
  | [], _ => []
  | r :: rest, usedC =>
    let c := argminIdx (rowAt D r)
    if c ∈ usedC ∨ (maxDist : Int) * maxDist < dAt D r c then
      amendedLoop D maxDist rest usedC
    else (r, c) :: amendedLoop D maxDist rest (c :: usedC)

/-- The association described by the amended claim. -/
def amendedPairs (D : List (List Int)) (maxDist : Nat) : List (Nat × Nat) :=
  amendedLoop D maxDist (sortedRowIdx D) []

/-- Modelled from the claim's tie-break wording, for comparison with
`counterMode`: the maximal number of occurrences of any label. -/
def maxLabelCount (l : List String) : Nat :=
  (l.map (fun s => l.count s)).foldr max 0

/-- The least prefix length of `l` after which `s` has occurred `m` times
(`l.length + 1` if never). -/
def reachTime (l : List String) (m : Nat) (s : String) : Nat :=
  (((List.range (l.length + 1)).filter (fun n => (l.take n).count s == m)).head?).getD
    (l.length + 1)

/-- Modelled from the claim's words: the mode of the history, with ties broken in
favour of the label that was first to reach the maximal count. -/
def firstToReachMode (l : List String) : Option String :=
  let m := maxLabelCount l
  ((firstKeys l).filter (fun s => l.count s == m)).foldl
    (fun best s =>
      match best with
      | none => some s
      | some b => if reachTime l m s < reachTime l m b then some s else best) none

/-- The per-frame crowd aggregation of `VideoCamera.get_frame`
(camera.py 314-330): among tracks with `hits >= 10`, count by gender label;
`total = male + female`.  Result `(total, male, female)`. -/
def aggregateCounts (objs : List (Nat × Track)) : Nat × Nat × Nat :=
  let mf := objs.foldl (fun (mf : Nat × Nat) p =>
    if 10 ≤ p.2.hits then
      if p.2.gender = "Male" then (mf.1 + 1, mf.2)
      else if p.2.gender = "Female" then (mf.1, mf.2 + 1)
      else mf
    else mf) (0, 0)
  (mf.1 + mf.2, mf.1, mf.2)

/-- An advertisement asset.  `id := none` models a catalog entry whose dict lacks
the `'id'` key; `descr := none` one without a `'description'`. -/
structure AdAsset where
  id : Option String
  path : String
  ty : String
  name : String
  descr : Option String
deriving DecidableEq

/-- The `AdManager.demo_male_ads` catalog. -/
def demo_male_ads : List AdAsset :=
  [{ id := some "MALE_001"
     path := "https://images.unsplash.com/photo-1542291026-7eec264c27ff?w=800"
     ty := "image"
     name := "Men\x27s Premium Shoes Collection"
     descr := some "Sports shoes, formal shoes, sneakers - Up to 50% OFF" },
   { id := some "MALE_002"
     path := "https://images.unsplash.com/photo-1521572163474-6864f9cf17ab?w=800"
     ty := "image"
     name := "Men\x27s Fashion Pants & Jeans"
     descr := some "Denim, chinos, formal trousers - Latest styles" },
   { id := some "MALE_003"
     path := "https://images.unsplash.com/photo-1523381294911-8d3cead13475?ixlib=rb-4.1.0&fm=jpg&q=60&w=3000"
     ty := "image"
     name := "Men\x27s Shirts & T-Shirts"
     descr := some "Casual shirts, formal shirts, polo tees - All sizes available" },
   { id := some "MALE_004"
     path := "https://images.unsplash.com/photo-1523275335684-37898b6baf30?w=800"
     ty := "image"
     name := "Men\x27s Watches & Accessories"
     descr := some "Premium watches, belts, wallets - Luxury collection" }]

/-- The `AdManager.demo_female_ads` catalog. -/
def demo_female_ads : List AdAsset :=
  [{ id := some "FEMALE_001"
     path := "https://images.unsplash.com/photo-1548036328-c9fa89d128fa?w=800"
     ty := "image"
     name := "Women\x27s Handbags & Purses"
     descr := some "Designer bags, clutches, totes - Fashion collection" },
   { id := some "FEMALE_002"
     path := "https://images.unsplash.com/photo-1515562141207-7a88fb7ce338?w=800"
     ty := "image"
     name := "Women\x27s Jewelry Collection"
     descr := some "Necklaces, earrings, bracelets - Elegant pieces" },
   { id := some "FEMALE_003"
     path := "https://images.unsplash.com/photo-1543163521-1bf539c55dd2?w=800"
     ty := "image"
     name := "Women\x27s Footwear"
     descr := some "Heels, flats, sandals, boots - Latest trends" },
   { id := some "FEMALE_004"
     path := "https://images.unsplash.com/photo-1596462502278-27bfdc403348?w=800"
     ty := "image"
     name := "Beauty & Cosmetics"
     descr := some "Makeup, skincare, perfumes - Premium brands" },
   { id := some "FEMALE_005"
     path := "https://images.unsplash.com/photo-1594633312681-425c7b97ccd1?w=800"
     ty := "image"
     name := "Women\x27s Fashion Accessories"
     descr := some "Scarves, sunglasses, fashion jewelry - Complete collection" }]

/-- The `AdManager.demo_neutral_ads` catalog. -/
def demo_neutral_ads : List AdAsset :=
  [{ id := some "NEUTRAL_001"
     path := "https://images.unsplash.com/photo-1557683316-973673baf926?w=800"
     ty := "image"
     name := "Mall Special Promotions"
     descr := some "Weekend sales, special discounts - Shop now!" },
   { id := some "NEUTRAL_002"
     path := "https://images.unsplash.com/photo-1441986300917-64674bd600d8?w=800"
     ty := "image"
     name := "Food Court Offers"
     descr := some "Special meals, discounts on dining - Visit now!" }]

/-- The `self.current_ad` dict: `{**selected, 'gender': ..., 'timestamp': ...}`. -/
structure ShownAd where
  asset : AdAsset
  gender : String
  timestamp : Int
deriving DecidableEq

/-- The mutable state of an `AdManager`.  `mongo_db` is the persisted analytics
store keyed by `ad_id` with its display counts (`none` = MongoDB unavailable);
`local_analytics` is the in-memory mirror, likewise reduced to its
`display_count` per `ad_id` (the claims are about the counts only). -/
structure AdManagerState where
  current_ad : Option ShownAd
  ad_start_time : Option Int
  last_majority_gender : Option String
  last_ad_change_time : List (String × Int)
  ad_history : List ShownAd
  mongo_db : Option (List (String × Nat))
  local_analytics : List (String × Nat)
  male_ads : List AdAsset
  female_ads : List AdAsset
  neutral_ads : List AdAsset
deriving DecidableEq

/-- Constant `config.AD_DISPLAY_DURATION` (default 15 s). -/
def AD_DISPLAY_DURATION : Int := 15

/-- Constant `config.AD_TRIGGER_DELAY` (default 2 s). -/
def AD_TRIGGER_DELAY : Int := 2

/-- The second component of `should_show_ad`'s heterogeneous Python result:
`None`, a gender string, or the current-ad dict. -/
inductive AdSignal
  | noneSig
  | genderSig (g : String)
  | adSig (ad : ShownAd)
deriving DecidableEq

/-- The `{'total': ..., 'male': ..., 'female': ...}` counts dict. -/
structure Counts where
  total : Nat
  male : Nat
  female : Nat
deriving DecidableEq

/-- The cooldown tail of `should_show_ad` (ad_manager.py 196-203). -/
def showCooldown (s : AdManagerState) (gender : String) (now : Int) : Bool × AdSignal :=
  match s.last_ad_change_time.lookup gender with
  | some t =>
    if now - t < AD_TRIGGER_DELAY then (false, AdSignal.noneSig)
    else (true, AdSignal.genderSig gender)
  | none => (true, AdSignal.genderSig gender)

/-- Method `AdManager.should_show_ad` (ad_manager.py 172-203), paired with the state
after the call; the method never assigns to `self`, so every return carries the
incoming state.  The lock is elided (the model is single-threaded). -/
def should_show_adS (s : AdManagerState) (gender : String) (counts : Counts)
    (now : Int) : (Bool × AdSignal) × AdManagerState :=
  if counts.total = 0 then ((false, AdSignal.noneSig), s)
  else
    match s.current_ad, s.ad_start_time with
    | some ad, some t0 =>
      if now - t0 < AD_DISPLAY_DURATION then
        if some gender ≠ s.last_majority_gender then ((true, AdSignal.genderSig gender), s)
        else ((false, AdSignal.adSig ad), s)
      else (showCooldown s gender now, s)
    | _, _ => (showCooldown s gender now, s)

/-- The result of `AdManager.should_show_ad`. -/
def should_show_ad (s : AdManagerState) (gender : String) (counts : Counts)
    (now : Int) : Bool × AdSignal :=
  (should_show_adS s gender counts now).1

/-- Python dict assignment `d[k] = v` on an association list: overwrite in place,
or append when the key is new (insertion order is preserved). -/
def dictInsert (d : List (String × Int)) (k : String) (v : Int) : List (String × Int) :=
  if (d.lookup k).isSome then d.map (fun p => if p.1 = k then (p.1, v) else p)
  else d ++ [(k, v)]

/-- Dict assignment for `Nat`-valued dicts (display counts). -/
def dictInsertN (d : List (String × Nat)) (k : String) (v : Nat) : List (String × Nat) :=
  if (d.lookup k).isSome then d.map (fun p => if p.1 = k then (p.1, v) else p)
  else d ++ [(k, v)]

/-- The upsert-increment that `_track_ad_display` performs on either store:
MongoDB `$inc: {display_count: 1}` with `upsert=True`, and the in-memory path
(initialise at 0 when absent, then `+ 1`). -/
def upsertInc (store : List (String × Nat)) (k : String) : List (String × Nat) :=
  if (store.lookup k).isSome then
    store.map (fun p => if p.1 = k then (p.1, p.2 + 1) else p)
  else store ++ [(k, 1)]

/-- Method `AdManager._track_ad_display` (ad_manager.py 253-300), reduced to the display
counts: try MongoDB first (`mongoWriteOk = false` models `update_one` raising, in
which case the inner `except` falls through), otherwise update the in-memory
mirror.  `ad.get('id', 'UNKNOWN')` supplies the key. -/
def track_ad_display (s : AdManagerState) (ad : ShownAd) (mongoWriteOk : Bool) :
    AdManagerState :=
  let adId := (ad.asset.id).getD "UNKNOWN"
  match s.mongo_db, mongoWriteOk with
  | some store, true => { s with mongo_db := some (upsertInc store adId) }
  | _, _ => { s with local_analytics := upsertInc s.local_analytics adId }

/-- Computes `ad_name_clean` as in the source: name with spaces underscored, apostrophes dropped, upper-cased. -/
def cleanAdName (n : String) : String :=
  ((n.replace " " "_").replace "\x27" "").toUpper

/-- The `if 'id' not in selected` fix-up of `select_ad`: assign
`f"{gender.upper()}_{ad_name_clean}"` when the asset has no id. -/
def ensureId (gender : String) (a : AdAsset) : AdAsset :=
  match a.id with
  | some _ => a
  | none => { a with id := some (gender.toUpper ++ "_" ++ cleanAdName a.name) }

/-- The `ads_list` computed at the head of `AdManager.select_ad`
(ad_manager.py 208-217): the gender's inventory, falling back to the gender's
demo catalog when empty, and to the neutral demo catalog when still empty. -/
def selectPool (s : AdManagerState) (gender : String) : List AdAsset :=
  let ads_list :=
    if gender = "male" then (if s.male_ads ≠ [] then s.male_ads else demo_male_ads)
    else if gender = "female" then (if s.female_ads ≠ [] then s.female_ads else demo_female_ads)
    else (if s.neutral_ads ≠ [] then s.neutral_ads else demo_neutral_ads)
  if ads_list = [] then demo_neutral_ads else ads_list

/-- Method `AdManager.select_ad` (ad_manager.py 205-251).  `random.choice` is modelled by
an arbitrary index `choice` taken modulo the list length; the call fails (returns
`none`) exactly when it would index an empty list, which the fallback chain rules
out.  `trackRaises` models `_track_ad_display` raising — `select_ad` catches it
and proceeds; `mongoWriteOk` is threaded to the tracking step. -/
def select_ad (s : AdManagerState) (gender : String) (choice : Nat) (now : Int)
    (trackRaises : Bool) (mongoWriteOk : Bool) : Option (ShownAd × AdManagerState) :=
  let ads_list := selectPool s gender
  match ads_list.get? (choice % ads_list.length) with
  | none => none
  | some sel =>
    let sel := ensureId gender sel
    let cur : ShownAd := { asset := sel, gender := gender, timestamp := now }
    let s1 : AdManagerState :=
      { s with
        current_ad := some cur
        ad_start_time := some now
        last_ad_change_time := dictInsert s.last_ad_change_time gender now
        last_majority_gender := some gender }
    let s2 := if trackRaises then s1 else track_ad_display s1 cur mongoWriteOk
    let hist := s2.ad_history ++ [cur]
    let s3 : AdManagerState :=
      { s2 with ad_history := if 100 < hist.length then hist.tail else hist }
    some (cur, s3)

/-- Method `AdManager.get_current_ad` (ad_manager.py 302-312): return the current ad
while it is younger than `AD_DISPLAY_DURATION`, otherwise clear it (lazy expiry)
and return the cleared value. -/
def get_current_ad (s : AdManagerState) (now : Int) : Option ShownAd × AdManagerState :=
  match s.current_ad, s.ad_start_time with
  | some ad, some t0 =>
    if now - t0 < AD_DISPLAY_DURATION then (some ad, s)
    else (none, { s with current_ad := none, ad_start_time := none })
  | _, _ => (s.current_ad, s)

/-- The `all_ads_dict` built by `get_ad_analytics` from the MongoDB documents
(ad_manager.py 354-359), reduced to display counts. -/
def buildAdsDict (mongo : List (String × Nat)) : List (String × Nat) :=
  mongo.foldl (fun d p => dictInsertN d p.1 p.2) []

/-- The merge of the in-memory mirror into `all_ads_dict`
(ad_manager.py 361-370): an id present in both keeps the max of the two counts,
a new id is added with its local count. -/
def mergeLocalAnalytics (d : List (String × Nat)) (localA : List (String × Nat)) :
    List (String × Nat) :=
  localA.foldl (fun d p =>
    match d.lookup p.1 with
    | some c => dictInsertN d p.1 (max c p.2)
    | none => d ++ [p]) d

/-- The per-asset display counts reported by `AdManager.get_ad_analytics`
(ad_manager.py 342-414).  Line 347 tests `if self.mongo_db:`, but `mongo_db` is
a pymongo `Database` when attached (app.py:37 passes `mongo.db`), and pymongo
forbids truth-value testing of `Database` — the test raises
NotImplementedError, the outer `except Exception` at line 405 catches it, and
the zeroed analytics are returned: the merge of lines 354-370 never runs.  With
`mongo_db = None` the test is False, `mongo_ads` stays `[]`, and the merge
(modelled by `buildAdsDict` and `mergeLocalAnalytics`, which embed lines
354-370 as written) sees only the in-memory mirror.  The rest of the class
tests `is not None` (lines 27, 260), so line 347 is the one deviating site. -/
def get_ad_analytics_counts (s : AdManagerState) : List (String × Nat) :=
  match s.mongo_db with
  | some _ => []
  | none => mergeLocalAnalytics (buildAdsDict []) s.local_analytics

/-- The per-track invariant behind C3: the history is a bounded, non-empty list
and the displayed gender is its `Counter` mode. -/
def trackOK (t : Track) : Prop :=
  t.gender_history.length ≤ 20 ∧ t.gender_history ≠ [] ∧
    t.gender = counterMode t.gender_history

/-- The structural tracker invariant behind C4: keys strictly increase in
insertion order (hence are pairwise distinct), stay below `next_object_id`, and
no surviving track is older than `max_disappeared`. -/
def keysOK (st : TrackerState) : Prop :=
  (st.objects.map Prod.fst).Pairwise (· < ·) ∧
    ∀ p ∈ st.objects, p.1 < st.next_object_id ∧ p.2.disappeared ≤ st.max_disappeared

/-- Well-formedness of a catalog: no asset carries the empty id (ids produced by
`_load_ads` are `f"{GENDER}_{FILE}"`, never empty; an absent id is allowed and
later repaired by `select_ad`). -/
def wfAssets (l : List AdAsset) : Prop :=
  ∀ a ∈ l, a.id ≠ some ""

/-- A degenerate observation whose centroid is `(x, y)`, for concrete instances. -/
def obsAt (x y : Nat) (g : String) : Obs :=
  { bbox := (x, y, 0, 0), gender := g, confidence := 1 }

/-- A concrete manager state for instances: nothing showing, empty inventories,
one `female` trigger recorded at time 0. -/
def adStateA : AdManagerState :=
  { current_ad := none
    ad_start_time := none
    last_majority_gender := some "female"
    last_ad_change_time := [("female", 0)]
    ad_history := []
    mongo_db := none
    local_analytics := []
    male_ads := []
    female_ads := []
    neutral_ads := [] }

/-- A concrete current-ad record for instances. -/
def shownB : ShownAd :=
  { asset := { id := some "FEMALE_001", path := "p", ty := "image", name := "n", descr := none }
    gender := "female"
    timestamp := 0 }

/-- State `adStateA` with `shownB` showing since time 0. -/
def adStateB : AdManagerState :=
  { adStateA with current_ad := some shownB, ad_start_time := some 0 }

/-- State `adStateA` with persisted count 3 and in-memory count 5 for asset "AD". -/
def adStateC : AdManagerState :=
  { adStateA with mongo_db := some [("AD", 3)], local_analytics := [("AD", 5)] }

/-! ## Theorems -/

theorem aggregateCounts_foldl (objs : List (Nat × Track)) (m f : Nat) :
    objs.foldl (fun (mf : Nat × Nat) p =>
      if 10 ≤ p.2.hits then
        if p.2.gender = "Male" then (mf.1 + 1, mf.2)
        else if p.2.gender = "Female" then (mf.1, mf.2 + 1)
        else mf
      else mf) (m, f) =
    (m + objs.countP (fun p => decide (10 ≤ p.2.hits ∧ p.2.gender = "Male")),
     f + objs.countP (fun p => decide (10 ≤ p.2.hits ∧ p.2.gender = "Female"))) := by
  induction objs generalizing m f with
  | nil => simp
  | cons a l ih =>
    simp only [List.foldl_cons, List.countP_cons]
    by_cases h1 : 10 ≤ a.2.hits
    · by_cases h2 : a.2.gender = "Male"
      · simp only [if_pos h1, if_pos h2, ih]
        have : ¬ a.2.gender = "Female" := by simp [h2]
        simp [h1, h2, this]
        omega
      · by_cases h3 : a.2.gender = "Female"
        · simp only [if_pos h1, if_neg h2, if_pos h3, ih]
          simp [h1, h2, h3]
          omega
        · simp only [if_pos h1, if_neg h2, if_neg h3, ih]
          simp [h1, h2, h3]
    · simp only [if_neg h1, ih]
      simp [h1]

/-- C5: the crowd aggregation counts a track as male (resp. female) exactly when
its hit count is at least 10 and its gender label is Male (resp. Female), the
total is male + female (so confirmed Unknown tracks contribute to no count), and
in particular a track with 9 hits is excluded while one with 10 hits is
included. -/
theorem crowdsense_c5_aggregate (objs : List (Nat × Track)) :
    (aggregateCounts objs =
      (objs.countP (fun p => decide (10 ≤ p.2.hits ∧ p.2.gender = "Male")) +
         objs.countP (fun p => decide (10 ≤ p.2.hits ∧ p.2.gender = "Female")),
       objs.countP (fun p => decide (10 ≤ p.2.hits ∧ p.2.gender = "Male")),
       objs.countP (fun p => decide (10 ≤ p.2.hits ∧ p.2.gender = "Female")))) ∧
    aggregateCounts [(0, { freshTrack (0, 0) (0, 0, 0, 0) "Male" 1 with hits := 9 })] = (0, 0, 0) ∧
    aggregateCounts [(0, { freshTrack (0, 0) (0, 0, 0, 0) "Male" 1 with hits := 10 })] = (1, 1, 0) ∧
    aggregateCounts [(0, { freshTrack (0, 0) (0, 0, 0, 0) "Unknown" 1 with hits := 10 })] = (0, 0, 0) := by
  refine ⟨?_, by decide, by decide, by decide⟩
  unfold aggregateCounts
  rw [aggregateCounts_foldl]
  simp

/-- C10: the ad-trigger decision is read-only — `should_show_ad` returns with
every field of the manager state exactly as it was. -/
theorem crowdsense_c10_readonly (s : AdManagerState) (gender : String)
    (counts : Counts) (now : Int) :
    (should_show_adS s gender counts now).2 = s := by
  unfold should_show_adS
  split
  · rfl
  · split <;> try rfl
    split <;> try rfl
    split <;> rfl

/-- C2 counterexample: a track registered from an Unknown-labelled observation
has `gender_history = ["Unknown"]` — not the empty history the claim states, and
it does contain the label Unknown. -/
theorem crowdsense_c2_cex :
    ((update (initTracker 50 150) [obsAt 3 4 "Unknown"]).objects.map
      (fun p => p.2.gender_history)) = [["Unknown"]] ∧
    "Unknown" ∈ (["Unknown"] : List String) ∧
    (["Unknown"] : List String) ≠ ([] : List String) := by decide

/-- C1 counterexample: with tracks at (0,0), (10,0) and observations at (1,0),
(100,0) — all pairs within distance 150 — the spec's all-pairs greedy matches
both tracks, but the code pairs each track only with its nearest observation, so
track 1 loses observation 0 to track 0 and is never matched with observation 1:
the update leaves track 1 aged and registers observation 1 as a new track 2. -/
theorem crowdsense_c1_cex :
    let st := update (initTracker 50 150) [obsAt 0 0 "Male", obsAt 10 0 "Male"]
    let rects := [obsAt 1 0 "Male", obsAt 100 0 "Male"]
    let D := dMat st (rects.map (fun r => centroidOf r.bbox))
    specGreedyPairs D 150 = [(0, 0), (1, 1)] ∧
    codePairs D 150 = [(0, 0)] ∧
    specGreedyPairs D 150 ≠ codePairs D 150 ∧
    (update st rects).objects.map Prod.fst = [0, 1, 2] ∧
    (update st rects).objects.map (fun p => p.2.disappeared) = [0, 1, 0] := by decide

/-- C3 counterexample: after the observation sequence Female, Male, Male, Female
on one spot, the track's history is [Female, Male, Male, Female] — a 2-2 tie.
The label first to reach the maximal count 2 is Male (at the third element), but
the code (`Counter.most_common`) reports Female, the label inserted first. -/
theorem crowdsense_c3_cex :
    ((runUpdates (initTracker 50 150) [[obsAt 5 5 "Female"], [obsAt 5 5 "Male"],
      [obsAt 5 5 "Male"], [obsAt 5 5 "Female"]]).objects.map
        (fun p => (p.2.gender, p.2.gender_history)))
      = [("Female", ["Female", "Male", "Male", "Female"])] ∧
    firstToReachMode ["Female", "Male", "Male", "Female"] = some "Male" ∧
    ("Female" : String) ≠ "Male" := by decide

/-- C6: the ad-trigger decision.  With no people it declines; while an ad is
showing and younger than `AD_DISPLAY_DURATION` (15 s) it keeps the current ad for
an unchanged majority and switches immediately for a changed one; otherwise it
declines while the majority gender is within `AD_TRIGGER_DELAY` (2 s) of its last
trigger and fires otherwise. -/
theorem crowdsense_c6_decide (s : AdManagerState) (gender : String)
    (counts : Counts) (now : Int) :
    (counts.total = 0 → should_show_ad s gender counts now = (false, AdSignal.noneSig)) ∧
    (counts.total ≠ 0 →
      ∀ ad t0, s.current_ad = some ad → s.ad_start_time = some t0 →
        now - t0 < AD_DISPLAY_DURATION →
          (some gender = s.last_majority_gender →
            should_show_ad s gender counts now = (false, AdSignal.adSig ad)) ∧
          (some gender ≠ s.last_majority_gender →
            should_show_ad s gender counts now = (true, AdSignal.genderSig gender))) ∧
    (counts.total ≠ 0 →
      (s.current_ad = none ∨ s.ad_start_time = none ∨
        ∀ t0, s.ad_start_time = some t0 → AD_DISPLAY_DURATION ≤ now - t0) →
      (∀ tg, s.last_ad_change_time.lookup gender = some tg →
        (now - tg < AD_TRIGGER_DELAY →
          should_show_ad s gender counts now = (false, AdSignal.noneSig)) ∧
        (AD_TRIGGER_DELAY ≤ now - tg →
          should_show_ad s gender counts now = (true, AdSignal.genderSig gender))) ∧
      (s.last_ad_change_time.lookup gender = none →
        should_show_ad s gender counts now = (true, AdSignal.genderSig gender))) := by
  refine ⟨?_, ?_, ?_⟩
  · intro h
    simp [should_show_ad, should_show_adS, h]
  · intro h ad t0 hca hst hlt
    constructor
    · intro heq
      simp [should_show_ad, should_show_adS, h, hca, hst, hlt, heq]
    · intro hne
      simp [should_show_ad, should_show_adS, h, hca, hst, hlt, hne]
  · intro h hnot
    have hred : should_show_ad s gender counts now = showCooldown s gender now := by
      unfold should_show_ad should_show_adS
      rcases hc : s.current_ad with _ | ad
      · simp [h, hc]
      · rcases ht : s.ad_start_time with _ | t0
        · simp [h, hc, ht]
        · rcases hnot with h1 | h1 | h1
          · rw [hc] at h1; cases h1
          · rw [ht] at h1; cases h1
          · have h2 := h1 t0 ht
            simp [h, hc, ht, not_lt.mpr h2]
    refine ⟨?_, ?_⟩
    · intro tg htg
      refine ⟨?_, ?_⟩
      · intro hcd
        rw [hred]; unfold showCooldown; rw [htg]; simp [hcd]
      · intro hge
        rw [hred]; unfold showCooldown; rw [htg]; simp [not_lt.mpr hge]
    · intro hnone
      rw [hred]; unfold showCooldown; rw [hnone]

/-- Witness for C6: the spec's cooldown scenario.  After a `female` trigger at
t = 0 (nothing showing), a `female` retrigger attempt at t = 1 is suppressed and
one at t = 3 is permitted. -/
theorem crowdsense_c6_witness :
    should_show_ad adStateA "female" ⟨1, 0, 1⟩ 1 = (false, AdSignal.noneSig) ∧
    should_show_ad adStateA "female" ⟨1, 0, 1⟩ 3 = (true, AdSignal.genderSig "female") := by
  constructor
  · exact (((crowdsense_c6_decide adStateA "female" ⟨1, 0, 1⟩ 1).2.2 (by decide)
      (Or.inl (by decide))).1 0 (by decide)).1 (by decide)
  · exact (((crowdsense_c6_decide adStateA "female" ⟨1, 0, 1⟩ 3).2.2 (by decide)
      (Or.inl (by decide))).1 0 (by decide)).2 (by decide)

/-- C9: `get_current_ad` returns the current ad unchanged while it is younger
than `AD_DISPLAY_DURATION`; otherwise it clears the current ad and its start time
and returns none (lazy expiry); the cooldown map and the last majority gender are
untouched in every case. -/
theorem crowdsense_c9_current_ad (s : AdManagerState) (now : Int)
    (hc : s.current_ad = none ↔ s.ad_start_time = none) :
    (∀ ad t0, s.current_ad = some ad → s.ad_start_time = some t0 →
      now - t0 < AD_DISPLAY_DURATION → get_current_ad s now = (some ad, s)) ∧
    ((s.current_ad = none ∨
        ∀ t0, s.ad_start_time = some t0 → AD_DISPLAY_DURATION ≤ now - t0) →
      (get_current_ad s now).1 = none ∧
      (get_current_ad s now).2.current_ad = none ∧
      (get_current_ad s now).2.ad_start_time = none) ∧
    (get_current_ad s now).2.last_ad_change_time = s.last_ad_change_time ∧
    (get_current_ad s now).2.last_majority_gender = s.last_majority_gender := by
  refine ⟨?_, ?_, ?_⟩
  · intro ad t0 h1 h2 h3
    unfold get_current_ad
    rw [h1, h2]
    simp [h3]
  · intro hdisj
    rcases hca : s.current_ad with _ | ad
    · have hst := hc.mp hca
      unfold get_current_ad
      rw [hca, hst]
      simp [hca, hst]
    · rcases hdisj with h1 | h1
      · rw [hca] at h1; cases h1
      · rcases hst : s.ad_start_time with _ | t0
        · have := hc.mpr hst; rw [hca] at this; cases this
        · have h2 := h1 t0 hst
          unfold get_current_ad
          rw [hca, hst]
          simp [not_lt.mpr h2]
  · unfold get_current_ad
    rcases s.current_ad with _ | ad <;> rcases s.ad_start_time with _ | t0 <;> simp
    split <;> simp

/-- Witness for C9: a fresh ad shown at t = 0 is still returned, state unchanged,
at t = 5. -/
theorem crowdsense_c9_witness :
    get_current_ad adStateB 5 = (some shownB, adStateB) :=
  (crowdsense_c9_current_ad adStateB 5 (by decide)).1 shownB 0 (by decide) (by decide)
    (by decide)

theorem lookup_cons' {β : Type} (p : String × β) (t : List (String × β)) (k : String) :
    List.lookup k (p :: t) = if k = p.1 then some p.2 else List.lookup k t := by
  obtain ⟨a, b⟩ := p
  by_cases h : k = a
  · simp [List.lookup, beq_iff_eq.mpr h, h]
  · simp [List.lookup, beq_eq_false_iff_ne.mpr h, h]

theorem lookup_append_of_none {β : Type} (d e : List (String × β)) (k : String)
    (h : d.lookup k = none) : (d ++ e).lookup k = e.lookup k := by
  induction d with
  | nil => simp
  | cons p t ih =>
    rw [lookup_cons'] at h
    rw [List.cons_append, lookup_cons']
    by_cases hk : k = p.1
    · rw [if_pos hk] at h; simp at h
    · rw [if_neg hk] at h ⊢; exact ih h

theorem lookup_append_of_some {β : Type} (d e : List (String × β)) (k : String) (v : β)
    (h : d.lookup k = some v) : (d ++ e).lookup k = some v := by
  induction d with
  | nil => simp at h
  | cons p t ih =>
    rw [lookup_cons'] at h
    rw [List.cons_append, lookup_cons']
    by_cases hk : k = p.1
    · rw [if_pos hk] at h ⊢; exact h
    · rw [if_neg hk] at h ⊢; exact ih h

theorem lookup_singleton_of_ne {β : Type} (p : String × β) (k : String) (h : k ≠ p.1) :
    ([p] : List (String × β)).lookup k = none := by
  rw [lookup_cons', if_neg h]; rfl

theorem lookup_eq_none_of_forall {β : Type} (d : List (String × β)) (k : String)
    (h : ∀ p ∈ d, p.1 ≠ k) : d.lookup k = none := by
  induction d with
  | nil => rfl
  | cons p t ih =>
    rw [lookup_cons', if_neg (fun he => (h p (by simp)) he.symm)]
    exact ih (fun q hq => h q (by simp [hq]))

theorem lookup_map_overwrite_self (d : List (String × Nat)) (k : String) (v : Nat)
    (h : (d.lookup k).isSome) :
    (d.map (fun p => if p.1 = k then (p.1, v) else p)).lookup k = some v := by
  induction d with
  | nil => simp at h
  | cons p t ih =>
    rw [lookup_cons'] at h
    simp only [List.map_cons]
    by_cases hk : p.1 = k
    · rw [if_pos hk, lookup_cons', if_pos hk.symm]
    · rw [if_neg hk, lookup_cons', if_neg (fun he => hk he.symm)]
      rw [if_neg (fun he => hk he.symm)] at h
      exact ih h

theorem lookup_map_overwrite_ne (d : List (String × Nat)) (k k' : String) (v : Nat)
    (h : k' ≠ k) :
    (d.map (fun p => if p.1 = k then (p.1, v) else p)).lookup k' = d.lookup k' := by
  induction d with
  | nil => simp
  | cons p t ih =>
    simp only [List.map_cons]
    by_cases hk : p.1 = k
    · rw [if_pos hk, lookup_cons', lookup_cons']
      rw [if_neg (fun he => h (he.trans hk)), if_neg (fun he => h (he.trans hk))]
      exact ih
    · rw [if_neg hk, lookup_cons', lookup_cons']
      by_cases hkp : k' = p.1
      · rw [if_pos hkp, if_pos hkp]
      · rw [if_neg hkp, if_neg hkp]; exact ih

theorem lookup_dictInsertN_self (d : List (String × Nat)) (k : String) (v : Nat) :
    (dictInsertN d k v).lookup k = some v := by
  unfold dictInsertN
  split
  · exact lookup_map_overwrite_self d k v (by assumption)
  · rename_i h
    rw [Option.not_isSome_iff_eq_none] at h
    rw [lookup_append_of_none d _ k h, lookup_cons', if_pos rfl]

theorem lookup_dictInsertN_ne (d : List (String × Nat)) (k k' : String) (v : Nat)
    (h : k' ≠ k) : (dictInsertN d k v).lookup k' = d.lookup k' := by
  unfold dictInsertN
  split
  · exact lookup_map_overwrite_ne d k k' v h
  · cases hd : d.lookup k' with
    | some v' => exact lookup_append_of_some d _ k' v' hd
    | none => rw [lookup_append_of_none d _ k' hd, lookup_singleton_of_ne _ _ h]

theorem buildAdsDict_of_nodup (mongo : List (String × Nat))
    (hn : (mongo.map Prod.fst).Nodup) : buildAdsDict mongo = mongo := by
  suffices h : ∀ d : List (String × Nat), (∀ p ∈ mongo, d.lookup p.1 = none) →
      mongo.foldl (fun d p => dictInsertN d p.1 p.2) d = d ++ mongo by
    simpa using h [] (fun p _ => rfl)
  induction mongo with
  | nil => intro d _; simp
  | cons p t ih =>
    intro d hd
    rw [List.map_cons, List.nodup_cons] at hn
    simp only [List.foldl_cons]
    have hstep : dictInsertN d p.1 p.2 = d ++ [p] := by
      unfold dictInsertN
      rw [hd p (by simp)]
      simp
    rw [hstep, ih hn.2 (d ++ [p]) ?_, List.append_assoc, List.singleton_append]
    intro q hq
    have hqp : q.1 ≠ p.1 := by
      intro he
      exact hn.1 (he ▸ List.mem_map_of_mem Prod.fst hq)
    rw [lookup_append_of_none d _ q.1 (hd q (by simp [hq])),
      lookup_singleton_of_ne _ _ hqp]

theorem mergeLocal_lookup (localA : List (String × Nat)) (d : List (String × Nat))
    (id : String) (hl : (localA.map Prod.fst).Nodup) :
    (mergeLocalAnalytics d localA).lookup id =
      match d.lookup id, localA.lookup id with
      | some c, some v => some (max c v)
      | some c, none => some c
      | none, some v => some v
      | none, none => none := by
  induction localA generalizing d with
  | nil =>
    simp only [mergeLocalAnalytics, List.foldl_nil, List.lookup]
    cases d.lookup id <;> rfl
  | cons p t ih =>
    rw [List.map_cons, List.nodup_cons] at hl
    have hstep : mergeLocalAnalytics d (p :: t) =
        mergeLocalAnalytics
          (match d.lookup p.1 with
           | some c => dictInsertN d p.1 (max c p.2)
           | none => d ++ [p]) t := by
      simp [mergeLocalAnalytics]
    rw [hstep, ih _ hl.2, lookup_cons']
    by_cases hid : id = p.1
    · rw [hid]
      have ht : t.lookup p.1 = none :=
        lookup_eq_none_of_forall t p.1
          (fun q hq he => hl.1 (he ▸ List.mem_map_of_mem Prod.fst hq))
      rw [if_pos rfl, ht]
      cases hd : d.lookup p.1 with
      | some c => rw [lookup_dictInsertN_self]
      | none =>
        rw [lookup_append_of_none d _ p.1 hd, lookup_cons', if_pos rfl]
    · rw [if_neg hid]
      cases hd : d.lookup p.1 with
      | some c => rw [lookup_dictInsertN_ne d p.1 id (max c p.2) hid]
      | none =>
        cases hdi : d.lookup id with
        | some v' => rw [lookup_append_of_some d _ id v' hdi]
        | none =>
          rw [lookup_append_of_none d _ id hdi, lookup_singleton_of_ne _ _ hid]

/-- C8: the claim states the code's own merge logic (ad_manager.py 354-370 and
the `is not None` idiom used everywhere else in the class), but that merge is
unreachable: with the persisted store attached, the truthiness test at line 347
raises and the outer except returns the zeroed analytics.  At the failing input
— persisted count 3 and in-memory count 5 for asset "AD" — the read reports
nothing for "AD" instead of the claimed max 3 5 = 5; the in-source merge, run
on the same two stores, does report 5, and with the store unavailable only the
mirror's count is visible. -/
theorem crowdsense_c8_analytics :
    get_ad_analytics_counts adStateC = [] ∧
    (get_ad_analytics_counts adStateC).lookup "AD" ≠ some 5 ∧
    (mergeLocalAnalytics (buildAdsDict [("AD", 3)]) [("AD", 5)]).lookup "AD"
      = some (max 3 5) ∧
    (get_ad_analytics_counts { adStateC with mongo_db := none }).lookup "AD"
      = some 5 := by decide

theorem wf_demo_male : wfAssets demo_male_ads := by unfold wfAssets; decide

theorem wf_demo_female : wfAssets demo_female_ads := by unfold wfAssets; decide

theorem wf_demo_neutral : wfAssets demo_neutral_ads := by unfold wfAssets; decide

theorem fallback_ne_nil (l : List AdAsset) :
    (if l = [] then demo_neutral_ads else l) ≠ [] := by
  by_cases h : l = []
  · rw [if_pos h]; decide
  · rw [if_neg h]; exact h

theorem fallback_wf (l : List AdAsset) (h : wfAssets l) :
    wfAssets (if l = [] then demo_neutral_ads else l) := by
  by_cases he : l = []
  · rw [if_pos he]; exact wf_demo_neutral
  · rw [if_neg he]; exact h

theorem selectPool_ne_nil (s : AdManagerState) (gender : String) :
    selectPool s gender ≠ [] :=
  fallback_ne_nil _

theorem selectPool_wf (s : AdManagerState) (gender : String)
    (hm : wfAssets s.male_ads) (hf : wfAssets s.female_ads)
    (hn : wfAssets s.neutral_ads) : wfAssets (selectPool s gender) := by
  have hinner : wfAssets
      (if gender = "male" then (if s.male_ads ≠ [] then s.male_ads else demo_male_ads)
       else if gender = "female" then
         (if s.female_ads ≠ [] then s.female_ads else demo_female_ads)
       else (if s.neutral_ads ≠ [] then s.neutral_ads else demo_neutral_ads)) := by
    by_cases h1 : gender = "male"
    · rw [if_pos h1]
      by_cases h2 : s.male_ads ≠ []
      · rw [if_pos h2]; exact hm
      · rw [if_neg h2]; exact wf_demo_male
    · rw [if_neg h1]
      by_cases h2 : gender = "female"
      · rw [if_pos h2]
        by_cases h3 : s.female_ads ≠ []
        · rw [if_pos h3]; exact hf
        · rw [if_neg h3]; exact wf_demo_female
      · rw [if_neg h2]
        by_cases h3 : s.neutral_ads ≠ []
        · rw [if_pos h3]; exact hn
        · rw [if_neg h3]; exact wf_demo_neutral
  exact fallback_wf _ hinner

theorem ensureId_nonempty (gender : String) (a : AdAsset) (ha : a.id ≠ some "") :
    ∃ i, (ensureId gender a).id = some i ∧ i ≠ "" := by
  cases hid : a.id with
  | some i =>
    refine ⟨i, ?_, fun he => ha (hid.trans (by rw [he]))⟩
    unfold ensureId
    rw [hid]
    exact hid
  | none =>
    refine ⟨gender.toUpper ++ "_" ++ cleanAdName a.name, ?_, ?_⟩
    · unfold ensureId
      rw [hid]
    · intro he
      have hlen : (gender.toUpper ++ "_" ++ cleanAdName a.name).length ≠ 0 := by
        rw [String.length_append, String.length_append]
        have h1 : ("_" : String).length = 1 := rfl
        omega
      rw [he] at hlen
      exact hlen rfl

/-- C7: `select_ad` never fails and always returns a record with a non-empty id,
even when the local inventory and the gender's primary catalog are both empty
(fallback chain: inventory, then the gender's demo catalog, then the neutral demo
catalog), and the returned record does not depend on whether the
analytics-recording step fails. -/
theorem crowdsense_c7_select (s : AdManagerState) (gender : String) (choice : Nat)
    (now : Int) (hm : wfAssets s.male_ads) (hf : wfAssets s.female_ads)
    (hn : wfAssets s.neutral_ads) :
    ∃ ad : ShownAd, ∃ i : String, ad.asset.id = some i ∧ i ≠ "" ∧
      ∀ trackRaises mongoWriteOk : Bool, ∃ s' : AdManagerState,
        select_ad s gender choice now trackRaises mongoWriteOk = some (ad, s') := by
  have hpool := selectPool_ne_nil s gender
  have hwf := selectPool_wf s gender hm hf hn
  have hlen : 0 < (selectPool s gender).length := List.length_pos.mpr hpool
  have hidx : choice % (selectPool s gender).length < (selectPool s gender).length :=
    Nat.mod_lt _ hlen
  obtain ⟨sel, hsel⟩ : ∃ sel,
      (selectPool s gender).get? (choice % (selectPool s gender).length) = some sel :=
    ⟨_, List.get?_eq_get hidx⟩
  have hselmem : sel ∈ selectPool s gender := List.get?_mem hsel
  obtain ⟨i, hi, hine⟩ := ensureId_nonempty gender sel (hwf sel hselmem)
  refine ⟨⟨ensureId gender sel, gender, now⟩, i, hi, hine, ?_⟩
  intro tr mw
  simp only [select_ad]
  rw [hsel]
  exact ⟨_, rfl⟩

/-- Witness for C7: with every inventory list empty, selecting a male ad
succeeds. -/
theorem crowdsense_c7_witness :
    ∃ ad : ShownAd, ∃ i : String, ad.asset.id = some i ∧ i ≠ "" ∧
      ∀ trackRaises mongoWriteOk : Bool, ∃ s' : AdManagerState,
        select_ad adStateA "male" 0 7 trackRaises mongoWriteOk = some (ad, s') :=
  crowdsense_c7_select adStateA "male" 0 7
    (fun a ha => absurd ha (List.not_mem_nil a))
    (fun a ha => absurd ha (List.not_mem_nil a))
    (fun a ha => absurd ha (List.not_mem_nil a))

theorem voteGender_trackOK (t : Track) (g : String) (h : trackOK t) :
    trackOK (voteGender t g) := by
  obtain ⟨h1, h2, h3⟩ := h
  unfold voteGender
  by_cases hg : g ≠ "Unknown"
  · rw [if_pos hg]
    by_cases hlen : 20 < (t.gender_history ++ [g]).length
    · rw [if_pos hlen]
      have hlen' : (t.gender_history ++ [g]).length = t.gender_history.length + 1 := by
        simp
      refine ⟨?_, ?_, rfl⟩
      · show (t.gender_history ++ [g]).tail.length ≤ 20
        rw [List.length_tail, hlen']
        omega
      · show (t.gender_history ++ [g]).tail ≠ []
        intro hnil
        have hl := congrArg List.length hnil
        rw [List.length_tail, hlen'] at hl
        simp only [Nat.add_sub_cancel, List.length_nil] at hl
        rw [hlen', hl] at hlen
        omega
    · rw [if_neg hlen]
      have hlen' : (t.gender_history ++ [g]).length = t.gender_history.length + 1 := by
        simp
      refine ⟨?_, ?_, rfl⟩
      · show (t.gender_history ++ [g]).length ≤ 20
        rw [hlen'] at hlen ⊢
        omega
      · show t.gender_history ++ [g] ≠ []
        simp
  · rw [if_neg hg]
    exact ⟨h1, h2, h3⟩

theorem trackOK_matched (t : Track) (r : Obs) (ic : Nat × Nat) (h : trackOK t) :
    trackOK (matchedTrack t r ic) := by
  have h1 : trackOK ({ t with centroid := ic, bbox := r.bbox }) := h
  exact voteGender_trackOK { t with centroid := ic, bbox := r.bbox } r.gender h1

theorem trackOK_fresh (c : Nat × Nat) (bbox : Nat × Nat × Nat × Nat) (g : String)
    (conf : ℚ) : trackOK (freshTrack c bbox g conf) := by
  refine ⟨?_, ?_, rfl⟩
  · show ([g] : List String).length ≤ 20
    simp
  · show ([g] : List String) ≠ []
    simp

theorem processEntry_key (M : List (Nat × Nat)) (rects : List Obs)
    (cents : List (Nat × Nat)) (maxDis i : Nat) (p q : Nat × Track)
    (h : processEntry M rects cents maxDis i p = some q) : q.1 = p.1 := by
  unfold processEntry at h
  split at h
  · split at h <;> (cases h; rfl)
  · split at h
    · cases h
    · cases h; rfl

theorem processEntry_disappeared (M : List (Nat × Nat)) (rects : List Obs)
    (cents : List (Nat × Nat)) (maxDis i : Nat) (p q : Nat × Track)
    (h : processEntry M rects cents maxDis i p = some q)
    (hp : p.2.disappeared ≤ maxDis) : q.2.disappeared ≤ maxDis := by
  unfold processEntry at h
  split at h
  · split at h <;> cases h
    · exact Nat.zero_le _
    · exact hp
  · split at h
    · cases h
    · cases h
      rename_i hcond
      exact Nat.le_of_not_lt hcond

theorem processEntry_trackOK (M : List (Nat × Nat)) (rects : List Obs)
    (cents : List (Nat × Nat)) (maxDis i : Nat) (p q : Nat × Track)
    (h : processEntry M rects cents maxDis i p = some q)
    (hp : trackOK p.2) : trackOK q.2 := by
  unfold processEntry at h
  split at h
  · split at h <;> cases h
    · exact trackOK_matched _ _ _ hp
    · exact hp
  · split at h
    · cases h
    · cases h
      exact hp

theorem processRows_mem (M : List (Nat × Nat)) (rects : List Obs)
    (cents : List (Nat × Nat)) (maxDis : Nat) :
    ∀ (i : Nat) (l : List (Nat × Track)) (q : Nat × Track),
      q ∈ processRows M rects cents maxDis i l →
      ∃ p ∈ l, ∃ j, processEntry M rects cents maxDis j p = some q := by
  intro i l
  induction l generalizing i with
  | nil => intro q h; simp [processRows] at h
  | cons p t ih =>
    intro q h
    simp only [processRows] at h
    cases he : processEntry M rects cents maxDis i p with
    | some q' =>
      rw [he] at h
      rcases List.mem_cons.mp h with h1 | h1
      · exact ⟨p, List.mem_cons_self p t, i, by rw [he, h1]⟩
      · obtain ⟨p', hp', j, hj⟩ := ih (i + 1) q h1
        exact ⟨p', List.mem_cons_of_mem p hp', j, hj⟩
    | none =>
      rw [he] at h
      obtain ⟨p', hp', j, hj⟩ := ih (i + 1) q h
      exact ⟨p', List.mem_cons_of_mem p hp', j, hj⟩

theorem processRows_keys_sublist (M : List (Nat × Nat)) (rects : List Obs)
    (cents : List (Nat × Nat)) (maxDis : Nat) :
    ∀ (i : Nat) (l : List (Nat × Track)),
      List.Sublist ((processRows M rects cents maxDis i l).map Prod.fst)
        (l.map Prod.fst) := by
  intro i l
  induction l generalizing i with
  | nil => simp [processRows]
  | cons p t ih =>
    simp only [processRows]
    cases he : processEntry M rects cents maxDis i p with
    | some q =>
      simp only [List.map_cons]
      rw [processEntry_key M rects cents maxDis i p q he]
      exact (ih (i + 1)).cons₂ p.1
    | none =>
      simp only [List.map_cons]
      exact (ih (i + 1)).cons p.1

theorem ageObjs_mem (m : Nat) (l : List (Nat × Track)) (q : Nat × Track)
    (h : q ∈ ageObjs m l) :
    ∃ p ∈ l, q = (p.1, { p.2 with disappeared := p.2.disappeared + 1 }) ∧
      q.2.disappeared ≤ m := by
  induction l with
  | nil => simp [ageObjs] at h
  | cons p t ih =>
    simp only [ageObjs] at h
    split at h
    · obtain ⟨p', h1, h2, h3⟩ := ih h
      exact ⟨p', List.mem_cons_of_mem p h1, h2, h3⟩
    · rcases List.mem_cons.mp h with h1 | h1
      · rename_i hcond
        refine ⟨p, List.mem_cons_self p t, h1, ?_⟩
        rw [h1]
        exact Nat.le_of_not_lt hcond
      · obtain ⟨p', h2, h3, h4⟩ := ih h1
        exact ⟨p', List.mem_cons_of_mem p h2, h3, h4⟩

theorem ageObjs_keys_sublist (m : Nat) (l : List (Nat × Track)) :
    List.Sublist ((ageObjs m l).map Prod.fst) (l.map Prod.fst) := by
  induction l with
  | nil => simp [ageObjs]
  | cons p t ih =>
    simp only [ageObjs]
    split
    · exact ih.cons p.1
    · simp only [List.map_cons]
      exact ih.cons₂ p.1

theorem register_keysOK (st : TrackerState) (c : Nat × Nat)
    (bbox : Nat × Nat × Nat × Nat) (g : String) (conf : ℚ) (h : keysOK st) :
    keysOK (register st c bbox g conf) := by
  obtain ⟨h1, h2⟩ := h
  constructor
  · show ((st.objects ++ [(st.next_object_id, freshTrack c bbox g conf)]).map
      Prod.fst).Pairwise (· < ·)
    rw [List.map_append, List.pairwise_append]
    refine ⟨h1, by simp, ?_⟩
    intro a ha b hb
    simp only [List.map_cons, List.map_nil, List.mem_singleton] at hb
    obtain ⟨p, hp, hpa⟩ := List.mem_map.mp ha
    rw [hb, ← hpa]
    exact (h2 p hp).1
  · intro p hp
    rcases List.mem_append.mp hp with h3 | h3
    · have := h2 p h3
      exact ⟨Nat.lt_succ_of_lt this.1, this.2⟩
    · simp only [List.mem_singleton] at h3
      rw [h3]
      exact ⟨Nat.lt_succ_self _, Nat.zero_le _⟩

theorem registerCols_fields (rects : List Obs) (cents : List (Nat × Nat)) :
    ∀ (cols : List Nat) (st : TrackerState),
      (registerCols rects cents cols st).max_disappeared = st.max_disappeared ∧
      (registerCols rects cents cols st).max_distance = st.max_distance ∧
      st.next_object_id ≤ (registerCols rects cents cols st).next_object_id := by
  intro cols
  induction cols with
  | nil => intro st; exact ⟨rfl, rfl, Nat.le_refl _⟩
  | cons c t ih =>
    intro st
    simp only [registerCols]
    cases rects.get? c with
    | some r =>
      cases cents.get? c with
      | some ic =>
        obtain ⟨f1, f2, f3⟩ := ih (register st ic r.bbox r.gender r.confidence)
        exact ⟨f1, f2, Nat.le_trans (Nat.le_succ _) f3⟩
      | none => exact ih st
    | none => exact ih st

theorem registerCols_mem (rects : List Obs) (cents : List (Nat × Nat)) :
    ∀ (cols : List Nat) (st : TrackerState) (q : Nat × Track),
      q ∈ (registerCols rects cents cols st).objects →
      q ∈ st.objects ∨ ∃ c ∈ cols, ∃ r ic, rects.get? c = some r ∧
        cents.get? c = some ic ∧ q.2 = freshTrack ic r.bbox r.gender r.confidence ∧
        st.next_object_id ≤ q.1 := by
  intro cols
  induction cols with
  | nil => intro st q h; exact Or.inl h
  | cons c t ih =>
    intro st q h
    simp only [registerCols] at h
    cases hr : rects.get? c with
    | some r =>
      cases hc : cents.get? c with
      | some ic =>
        rw [hr, hc] at h
        rcases ih _ q h with h1 | ⟨c', hc', r', ic', hr', hic', hfr, hle⟩
        · rcases List.mem_append.mp h1 with h2 | h2
          · exact Or.inl h2
          · simp only [List.mem_singleton] at h2
            refine Or.inr ⟨c, List.mem_cons_self c t, r, ic, hr, hc, ?_, ?_⟩
            · rw [h2]
            · rw [h2]
        · exact Or.inr ⟨c', List.mem_cons_of_mem c hc', r', ic', hr', hic', hfr,
            Nat.le_trans (Nat.le_succ _) hle⟩
      | none =>
        rw [hr, hc] at h
        rcases ih _ q h with h1 | ⟨c', hc', r', ic', hr', hic', hfr, hle⟩
        · exact Or.inl h1
        · exact Or.inr ⟨c', List.mem_cons_of_mem c hc', r', ic', hr', hic', hfr, hle⟩
    | none =>
      rw [hr] at h
      rcases ih _ q h with h1 | ⟨c', hc', r', ic', hr', hic', hfr, hle⟩
      · exact Or.inl h1
      · exact Or.inr ⟨c', List.mem_cons_of_mem c hc', r', ic', hr', hic', hfr, hle⟩

theorem registerCols_keysOK (rects : List Obs) (cents : List (Nat × Nat)) :
    ∀ (cols : List Nat) (st : TrackerState), keysOK st →
      keysOK (registerCols rects cents cols st) := by
  intro cols
  induction cols with
  | nil => intro st h; exact h
  | cons c t ih =>
    intro st h
    simp only [registerCols]
    cases rects.get? c with
    | some r =>
      cases cents.get? c with
      | some ic => exact ih _ (register_keysOK st ic r.bbox r.gender r.confidence h)
      | none => exact ih st h
    | none => exact ih st h

theorem update_trackOK (st : TrackerState) (rects : List Obs)
    (h : ∀ p ∈ st.objects, trackOK p.2) :
    ∀ p ∈ (update st rects).objects, trackOK p.2 := by
  unfold update
  split
  · intro p hp
    obtain ⟨p', h1, h2, _⟩ := ageObjs_mem _ _ p hp
    have h3 := h p' h1
    rw [h2]
    exact h3
  · split
    · intro p hp
      rcases registerCols_mem _ _ _ _ p hp with h1 | ⟨c, _, r, ic, _, _, hfresh, _⟩
      · exact h p h1
      · rw [hfresh]
        exact trackOK_fresh _ _ _ _
    · intro p hp
      simp only [applyAssoc] at hp
      rcases registerCols_mem _ _ _ _ p hp with h1 | ⟨c, _, r, ic, _, _, hfresh, _⟩
      · obtain ⟨p', hp', j, hj⟩ := processRows_mem _ _ _ _ _ _ p h1
        exact processEntry_trackOK _ _ _ _ _ _ _ hj (h p' hp')
      · rw [hfresh]
        exact trackOK_fresh _ _ _ _

theorem update_keysOK (st : TrackerState) (rects : List Obs) (h : keysOK st) :
    keysOK (update st rects) := by
  unfold update
  split
  · obtain ⟨h1, h2⟩ := h
    constructor
    · exact h1.sublist (ageObjs_keys_sublist _ _)
    · intro p hp
      obtain ⟨p', hp', heq, hle⟩ := ageObjs_mem _ _ p hp
      refine ⟨?_, hle⟩
      rw [heq]
      exact (h2 p' hp').1
  · split
    · exact registerCols_keysOK _ _ _ _ h
    · simp only [applyAssoc]
      refine registerCols_keysOK _ _ _ _ ?_
      obtain ⟨h1, h2⟩ := h
      constructor
      · exact h1.sublist (processRows_keys_sublist _ _ _ _ _ _)
      · intro p hp
        obtain ⟨p', hp', j, hj⟩ := processRows_mem _ _ _ _ _ _ p hp
        have hk := processEntry_key _ _ _ _ _ _ _ hj
        have hd := processEntry_disappeared _ _ _ _ _ _ _ hj (h2 p' hp').2
        refine ⟨?_, hd⟩
        rw [hk]
        exact (h2 p' hp').1

theorem applyAssoc_fields (st : TrackerState) (rects : List Obs)
    (cents : List (Nat × Nat)) (M : List (Nat × Nat)) :
    (applyAssoc st rects cents M).max_disappeared = st.max_disappeared ∧
    (applyAssoc st rects cents M).max_distance = st.max_distance ∧
    st.next_object_id ≤ (applyAssoc st rects cents M).next_object_id := by
  have h := registerCols_fields rects cents
    ((List.range rects.length).filter (fun c => !(M.map Prod.snd).contains c))
    { st with objects := processRows M rects cents st.max_disappeared 0 st.objects }
  exact h

theorem update_next_mono (st : TrackerState) (rects : List Obs) :
    st.next_object_id ≤ (update st rects).next_object_id := by
  unfold update
  split
  · exact Nat.le_refl _
  · split
    · exact (registerCols_fields _ _ _ _).2.2
    · exact (applyAssoc_fields _ _ _ _).2.2

theorem update_maxDis (st : TrackerState) (rects : List Obs) :
    (update st rects).max_disappeared = st.max_disappeared := by
  unfold update
  split
  · rfl
  · split
    · exact (registerCols_fields _ _ _ _).1
    · exact (applyAssoc_fields _ _ _ _).1

theorem update_mem_key (st : TrackerState) (rects : List Obs) (p : Nat × Track)
    (hp : p ∈ (update st rects).objects) :
    p.1 ∈ st.objects.map Prod.fst ∨ st.next_object_id ≤ p.1 := by
  unfold update at hp
  split at hp
  · obtain ⟨p', hp', heq, _⟩ := ageObjs_mem _ _ p hp
    left
    have hk : p.1 = p'.1 := by rw [heq]
    rw [hk]
    exact List.mem_map_of_mem Prod.fst hp'
  · split at hp
    · rcases registerCols_mem _ _ _ _ p hp with h1 | ⟨_, _, _, _, _, _, _, hle⟩
      · exact Or.inl (List.mem_map_of_mem Prod.fst h1)
      · exact Or.inr hle
    · simp only [applyAssoc] at hp
      rcases registerCols_mem _ _ _ _ p hp with h1 | ⟨_, _, _, _, _, _, _, hle⟩
      · obtain ⟨p', hp', j, hj⟩ := processRows_mem _ _ _ _ _ _ p h1
        left
        rw [processEntry_key _ _ _ _ _ _ _ hj]
        exact List.mem_map_of_mem Prod.fst hp'
      · exact Or.inr hle

theorem runUpdates_trackOK (frames : List (List Obs)) :
    ∀ st : TrackerState, (∀ p ∈ st.objects, trackOK p.2) →
      ∀ p ∈ (runUpdates st frames).objects, trackOK p.2 := by
  induction frames with
  | nil => intro st h; exact h
  | cons f fs ih => intro st h; exact ih (update st f) (update_trackOK st f h)

theorem runUpdates_keysOK (frames : List (List Obs)) :
    ∀ st : TrackerState, keysOK st → keysOK (runUpdates st frames) := by
  induction frames with
  | nil => intro st h; exact h
  | cons f fs ih => intro st h; exact ih (update st f) (update_keysOK st f h)

theorem runUpdates_maxDis (frames : List (List Obs)) :
    ∀ st : TrackerState, (runUpdates st frames).max_disappeared = st.max_disappeared := by
  induction frames with
  | nil => intro st; rfl
  | cons f fs ih =>
    intro st
    exact (ih (update st f)).trans (update_maxDis st f)

theorem runUpdates_not_mem (more : List (List Obs)) :
    ∀ (st : TrackerState) (id : Nat), id < st.next_object_id →
      id ∉ st.objects.map Prod.fst →
      id ∉ (runUpdates st more).objects.map Prod.fst := by
  induction more with
  | nil => intro st id _ h2; exact h2
  | cons f fs ih =>
    intro st id h1 h2
    refine ih (update st f) id (Nat.lt_of_lt_of_le h1 (update_next_mono st f)) ?_
    intro hmem
    obtain ⟨p, hp, hpe⟩ := List.mem_map.mp hmem
    rcases update_mem_key st f p hp with h3 | h3
    · rw [hpe] at h3
      exact h2 h3
    · rw [hpe] at h3
      omega

theorem keysOK_init (a b : Nat) : keysOK (initTracker a b) :=
  ⟨List.Pairwise.nil, by intro p hp; exact absurd hp (List.not_mem_nil p)⟩

/-- C2 amended: every observation registered as a new track (no tracks exist, or
it was unmatched) yields a track with framesSinceSeen = 0, hitCount = 1 and
genderLabelHistory = [label] in every case — including label Unknown, which
therefore can appear in the history (only as this initial element). -/
theorem crowdsense_c2_amended (st : TrackerState) (rects : List Obs)
    (p : Nat × Track) (hmem : p ∈ (update st rects).objects)
    (hnew : p.1 ∉ st.objects.map Prod.fst) :
    p.2.disappeared = 0 ∧ p.2.hits = 1 ∧
      ∃ r ∈ rects, p.2.gender_history = [r.gender] ∧ p.2.gender = r.gender := by
  unfold update at hmem
  split at hmem
  · obtain ⟨p', hp', heq, _⟩ := ageObjs_mem _ _ p hmem
    have hk : p.1 = p'.1 := by rw [heq]
    rw [hk] at hnew
    exact absurd (List.mem_map_of_mem Prod.fst hp') hnew
  · split at hmem
    · rcases registerCols_mem _ _ _ _ p hmem with h1 | ⟨c, hc, r, ic, hr, hic, hfresh, _⟩
      · exact absurd (List.mem_map_of_mem Prod.fst h1) hnew
      · exact ⟨by rw [hfresh]; rfl, by rw [hfresh]; rfl, r, List.get?_mem hr,
          by rw [hfresh]; rfl, by rw [hfresh]; rfl⟩
    · simp only [applyAssoc] at hmem
      rcases registerCols_mem _ _ _ _ p hmem with h1 | ⟨c, hc, r, ic, hr, hic, hfresh, _⟩
      · obtain ⟨p', hp', j, hj⟩ := processRows_mem _ _ _ _ _ _ p h1
        rw [processEntry_key _ _ _ _ _ _ _ hj] at hnew
        exact absurd (List.mem_map_of_mem Prod.fst hp') hnew
      · exact ⟨by rw [hfresh]; rfl, by rw [hfresh]; rfl, r, List.get?_mem hr,
          by rw [hfresh]; rfl, by rw [hfresh]; rfl⟩

/-- Witness for C2 amended: the track registered from an Unknown observation. -/
theorem crowdsense_c2_amended_witness :
    (freshTrack (3, 4) (3, 4, 0, 0) "Unknown" (1 : ℚ)).disappeared = 0 ∧
    (freshTrack (3, 4) (3, 4, 0, 0) "Unknown" (1 : ℚ)).hits = 1 ∧
    ∃ r ∈ [obsAt 3 4 "Unknown"],
      (freshTrack (3, 4) (3, 4, 0, 0) "Unknown" (1 : ℚ)).gender_history = [r.gender] ∧
      (freshTrack (3, 4) (3, 4, 0, 0) "Unknown" (1 : ℚ)).gender = r.gender :=
  crowdsense_c2_amended (initTracker 50 150) [obsAt 3 4 "Unknown"]
    (0, freshTrack (3, 4) (3, 4, 0, 0) "Unknown" 1) (by decide) (by decide)

/-- C3 amended: after every update from a fresh tracker, each live track's
history has length ≤ 20, is non-empty, and its gender label is the Counter mode
of the history — ties broken in favour of the label whose first occurrence in
the history is earliest (not the first to reach the maximal count); appending to
a full 20-entry history drops the oldest entry, and [Male, Male, Female] still
yields Male. -/
theorem crowdsense_c3_amended (frames : List (List Obs)) :
    (∀ p ∈ (runUpdates (initTracker 50 150) frames).objects,
      p.2.gender_history.length ≤ 20 ∧
      p.2.gender = counterMode p.2.gender_history) ∧
    (∀ (t : Track) (r : Obs) (ic : Nat × Nat), r.gender ≠ "Unknown" →
      t.gender_history.length = 20 →
      (matchedTrack t r ic).gender_history = t.gender_history.tail ++ [r.gender]) ∧
    counterMode ["Male", "Male", "Female"] = "Male" := by
  refine ⟨?_, ?_, by decide⟩
  · intro p hp
    have h := runUpdates_trackOK frames (initTracker 50 150)
      (fun q hq => absurd hq (List.not_mem_nil q)) p hp
    exact ⟨h.1, h.2.2⟩
  · intro t r ic hg hlen
    have hne : t.gender_history ≠ [] := by
      intro h
      rw [h] at hlen
      cases hlen
    have hcond : 20 <
        (({ t with centroid := ic, bbox := r.bbox } : Track).gender_history ++
          [r.gender]).length := by
      show 20 < (t.gender_history ++ [r.gender]).length
      rw [List.length_append, hlen, List.length_singleton]
      omega
    have key : (matchedTrack t r ic).gender_history =
        (t.gender_history ++ [r.gender]).tail := by
      show (voteGender { t with centroid := ic, bbox := r.bbox } r.gender).gender_history =
        (t.gender_history ++ [r.gender]).tail
      unfold voteGender
      rw [if_pos hg, if_pos hcond]
    rw [key]
    cases hgh : t.gender_history with
    | nil => exact absurd hgh hne
    | cons a l => simp

/-- Witness for C3 amended: the single track after one Male observation. -/
theorem crowdsense_c3_amended_witness :
    (freshTrack (5, 5) (5, 5, 0, 0) "Male" (1 : ℚ)).gender_history.length ≤ 20 ∧
    (freshTrack (5, 5) (5, 5, 0, 0) "Male" (1 : ℚ)).gender =
      counterMode (freshTrack (5, 5) (5, 5, 0, 0) "Male" (1 : ℚ)).gender_history :=
  (crowdsense_c3_amended [[obsAt 5 5 "Male"]]).1
    (0, freshTrack (5, 5) (5, 5, 0, 0) "Male" 1) (by decide)

/-- C4: over any run from a fresh tracker (camera.py instantiates it with
max_disappeared = 50), live track IDs are pairwise distinct, no live track has
framesSinceSeen above 50, and an ID that has been removed is never live again
in any continuation of the run. -/
theorem crowdsense_c4_ids (frames more : List (List Obs)) (id : Nat) :
    ((runUpdates (initTracker 50 150) frames).objects.map Prod.fst).Pairwise (· ≠ ·) ∧
    (∀ p ∈ (runUpdates (initTracker 50 150) frames).objects, p.2.disappeared ≤ 50) ∧
    (id < (runUpdates (initTracker 50 150) frames).next_object_id →
      id ∉ (runUpdates (initTracker 50 150) frames).objects.map Prod.fst →
      id ∉ (runUpdates (runUpdates (initTracker 50 150) frames) more).objects.map
        Prod.fst) := by
  have hOK := runUpdates_keysOK frames _ (keysOK_init 50 150)
  refine ⟨hOK.1.imp Nat.ne_of_lt, ?_, ?_⟩
  · intro p hp
    have h := (hOK.2 p hp).2
    rwa [runUpdates_maxDis] at h
  · exact runUpdates_not_mem more _ id

/-- Witness for C4: a track registered in frame 1 and starved for 51 frames is
removed; its ID 0 is below the next-ID counter, is no longer live, and does not
come back when a later observation registers a new track (which gets ID 1). -/
theorem crowdsense_c4_witness :
    0 < (runUpdates (initTracker 50 150)
      ([obsAt 5 5 "Male"] :: List.replicate 51 [])).next_object_id ∧
    0 ∉ (runUpdates (initTracker 50 150)
      ([obsAt 5 5 "Male"] :: List.replicate 51 [])).objects.map Prod.fst ∧
    0 ∉ (runUpdates (runUpdates (initTracker 50 150)
      ([obsAt 5 5 "Male"] :: List.replicate 51 [])) [[obsAt 9 9 "Female"]]).objects.map
        Prod.fst :=
  ⟨by decide, by decide,
    (crowdsense_c4_ids ([obsAt 5 5 "Male"] :: List.replicate 51 []) [[obsAt 9 9 "Female"]]
      0).2.2 (by decide) (by decide)⟩

theorem zip_self_map (l : List Nat) (f : Nat → Nat) :
    l.zip (l.map f) = l.map (fun a => (a, f a)) := by
  induction l with
  | nil => rfl
  | cons a t ih => simp only [List.map_cons, List.zip_cons_cons, ih]

theorem greedyLoop_eq_amendedLoop (D : List (List Int)) (maxDist : Nat) :
    ∀ (rows : List Nat) (usedR usedC : List Nat), rows.Nodup →
      (∀ r ∈ rows, r ∉ usedR) →
      greedyLoop D maxDist (rows.map (fun r => (r, argminIdx (rowAt D r)))) usedR usedC =
        amendedLoop D maxDist rows usedC := by
  intro rows
  induction rows with
  | nil => intro usedR usedC _ _; rfl
  | cons r rest ih =>
    intro usedR usedC hnd hnotin
    rw [List.nodup_cons] at hnd
    have hr : r ∉ usedR := hnotin r (List.mem_cons_self r rest)
    have hrest : ∀ r' ∈ rest, r' ∉ usedR :=
      fun r' h' => hnotin r' (List.mem_cons_of_mem r h')
    simp only [List.map_cons, greedyLoop, amendedLoop]
    by_cases hc : argminIdx (rowAt D r) ∈ usedC
    · rw [if_pos (Or.inr hc), if_pos (Or.inl hc)]
      exact ih usedR usedC hnd.2 hrest
    · by_cases hd : (maxDist : Int) * maxDist < dAt D r (argminIdx (rowAt D r))
      · rw [if_neg (fun hor => hor.elim hr hc), if_pos hd, if_pos (Or.inr hd)]
        exact ih usedR usedC hnd.2 hrest
      · rw [if_neg (fun hor => hor.elim hr hc), if_neg hd,
          if_neg (fun hor => hor.elim hc hd)]
        refine congrArg (List.cons _) (ih (r :: usedR) _ hnd.2 ?_)
        intro r' h' hmem
        rcases List.mem_cons.mp hmem with h1 | h1
        · exact hnd.1 (h1 ▸ h')
        · exact hrest r' h' h1

theorem codePairs_eq_amendedPairs (D : List (List Int)) (maxDist : Nat) :
    codePairs D maxDist = amendedPairs D maxDist := by
  unfold codePairs amendedPairs
  show greedyLoop D maxDist
      ((sortedRowIdx D).zip ((sortedRowIdx D).map (fun r => argminIdx (rowAt D r)))) [] [] =
    amendedLoop D maxDist (sortedRowIdx D) []
  rw [zip_self_map]
  apply greedyLoop_eq_amendedLoop
  · have hperm := List.perm_insertionSort
      (fun i j => rowMin (rowAt D i) ≤ rowMin (rowAt D j)) (List.range D.length)
    exact hperm.nodup_iff.mpr (List.nodup_range _)
  · intro r _ h
    exact absurd h (List.not_mem_nil r)

/-- C1 amended: for a non-empty track set and a non-empty observation list,
`update` applies the association in which each existing track is paired with its
single nearest observation, tracks are processed in ascending order of that
nearest distance, and a pair is accepted exactly when its observation is not yet
matched and its distance is at most 150; a track whose nearest observation is
already matched stays unmatched (it is not reassigned to its next-nearest).
Accepted pairs update their track, unmatched tracks age, unmatched observations
register as new tracks. -/
theorem crowdsense_c1_amended (st : TrackerState) (rects : List Obs)
    (h1 : st.objects ≠ []) (h2 : rects ≠ []) :
    update st rects =
      applyAssoc st rects (rects.map (fun r => centroidOf r.bbox))
        (amendedPairs (dMat st (rects.map (fun r => centroidOf r.bbox)))
          st.max_distance) := by
  unfold update
  rw [if_neg h2, if_neg h1, codePairs_eq_amendedPairs]

/-- Witness for C1 amended: the two-track, two-observation instance. -/
theorem crowdsense_c1_amended_witness :
    update (update (initTracker 50 150) [obsAt 0 0 "Male", obsAt 10 0 "Male"])
        [obsAt 1 0 "Male", obsAt 100 0 "Male"] =
      applyAssoc (update (initTracker 50 150) [obsAt 0 0 "Male", obsAt 10 0 "Male"])
        [obsAt 1 0 "Male", obsAt 100 0 "Male"]
        ([obsAt 1 0 "Male", obsAt 100 0 "Male"].map (fun r => centroidOf r.bbox))
        (amendedPairs
          (dMat (update (initTracker 50 150) [obsAt 0 0 "Male", obsAt 10 0 "Male"])
            ([obsAt 1 0 "Male", obsAt 100 0 "Male"].map (fun r => centroidOf r.bbox)))
          (update (initTracker 50 150)
            [obsAt 0 0 "Male", obsAt 10 0 "Male"]).max_distance) :=
  crowdsense_c1_amended _ _ (by decide) (by decide)
